import Mathlib

/-!
# Verification of the kit migration controller and localizer

Shallow embedding of `localizer.go` (the `Migrator` schema-migration
controller and the `Localizer`), with theorems checking the spec's claims
about them.

The migration-execution engine (`migrate.Migrate`) is an external
collaborator; it is modelled at its interface: a reported
`Version() = (version, dirty, err)` triple and oracles giving the outcome
of `Migrate(v)` and `Force(v)` calls.  Machine integers: Go `uint`/`int`
are 64-bit; conversions are modelled with explicit `% 2^64`.
-/

/-- Error component of the engine's `Version()` reply.
`nilVersion` is the sentinel `migrate.ErrNilVersion` (text "no migration");
`fail` is any other engine error. -/
inductive VErr where
  | nilVersion
  | fail (msg : String)
deriving DecidableEq, Repr

/-- The triple returned by `self.migrator.Version()`. -/
structure VersionReply where
  version : Nat
  dirty : Bool
  err : Option VErr
deriving DecidableEq, Repr

/-- The engine collaborator, modelled at its interface: the `Version()`
reply it produces, and the error outcome (if any) of `Migrate(v)` and
`Force(v)` calls. -/
structure EngineBehavior where
  versionReply : VersionReply
  migrateErr : Nat → Option String
  forceErr : Int → Option String

/-- Mutating engine calls an operation performs (schema-changing calls;
`Version()` reads are not mutations). -/
inductive EngineCall where
  | migrateCall (v : Nat)
  | forceCall (v : Int)
deriving DecidableEq, Repr

/-- Errors flowing inside an operation before the final classification
switch: `deadlineExceeded` is `ErrDeadlineExceeded` produced by the
deadline envelope, `migratorGeneric` is `ErrMigratorGeneric` carrying its
message or wrapped cause. -/
inductive GoErr where
  | deadlineExceeded
  | migratorGeneric (msg : String)
deriving DecidableEq, Repr

/-- Caller-visible result of a Migrator operation. -/
inductive MResult where
  | ok
  | timedOut
  | generic (msg : String)
deriving DecidableEq, Repr

/-- Go 64-bit word size. -/
def W64 : Nat := 2 ^ 64

/-- Go conversion `uint(i)` for a 64-bit `int i`: two's-complement
reinterpretation, i.e. `i` modulo `2^64`. -/
def uintOfInt (i : Int) : Nat := (i % (W64 : Int)).toNat

/-- Go conversion `int(n)` for a 64-bit `uint n`: two's-complement
reinterpretation. -/
def intOfUint (n : Nat) : Int :=
  if n < 2 ^ 63 then (n : Int) else (n : Int) - (W64 : Int)

/-- Message of `Withf("current schema version %d is dirty", c)`. -/
def dirtyMsg (c : Nat) : String :=
  "current schema version " ++ toString c ++ " is dirty"

/-- Message of `Withf("desired schema version %d behind from current one %d", d, c)`. -/
def behindMsg (d : Int) (c : Nat) : String :=
  "desired schema version " ++ toString d ++ " behind from current one " ++ toString c

/-- Message of `Withf("desired schema version %d ahead of current one %d", d, c)`. -/
def aheadMsg (d : Int) (c : Nat) : String :=
  "desired schema version " ++ toString d ++ " ahead of current one " ++ toString c

/-- Text of a `Version()` error as wrapped by `WrapAs`:
`migrate.ErrNilVersion` prints "no migration". -/
def vErrMsg : VErr → String
  | .nilVersion => "no migration"
  | .fail m => m

/-- Inner body of `Migrator.Assert` (the closure inside `Utils.Deadline`):
returns the error it produces (if any) and the mutating engine calls it
makes.  Faithful to the source: a `Version()` error other than
`ErrNilVersion` aborts; then dirty, then the two direction checks. -/
def assertInner (eng : EngineBehavior) (schemaVersion : Int) :
    Option GoErr × List EngineCall :=
  match eng.versionReply.err with
  | some (.fail m) => (some (.migratorGeneric m), [])
  | _ =>
    if eng.versionReply.dirty then
      (some (.migratorGeneric (dirtyMsg eng.versionReply.version)), [])
    else if eng.versionReply.version > uintOfInt schemaVersion then
      (some (.migratorGeneric (behindMsg schemaVersion eng.versionReply.version)), [])
    else if eng.versionReply.version < uintOfInt schemaVersion then
      (some (.migratorGeneric (aheadMsg schemaVersion eng.versionReply.version)), [])
    else
      (none, [])

/-- Inner body of `Migrator.Apply`: same `Version()`/dirty handling as
`Assert`; equal versions are a no-op, `c > uint(d)` fails, otherwise
`Migrate(uint(d))` is invoked and its error (if any) wrapped. -/
def applyInner (eng : EngineBehavior) (schemaVersion : Int) :
    Option GoErr × List EngineCall :=
  match eng.versionReply.err with
  | some (.fail m) => (some (.migratorGeneric m), [])
  | _ =>
    if eng.versionReply.dirty then
      (some (.migratorGeneric (dirtyMsg eng.versionReply.version)), [])
    else if eng.versionReply.version == uintOfInt schemaVersion then
      (none, [])
    else if eng.versionReply.version > uintOfInt schemaVersion then
      (some (.migratorGeneric (behindMsg schemaVersion eng.versionReply.version)), [])
    else
      match eng.migrateErr (uintOfInt schemaVersion) with
      | some m => (some (.migratorGeneric m), [.migrateCall (uintOfInt schemaVersion)])
      | none => (none, [.migrateCall (uintOfInt schemaVersion)])

/-- Comparison part of `Migrator.Rollback`'s inner body (after the dirty
branch): no-op on equal versions, fail when `c < uint(d)`, otherwise
`Migrate(uint(d))`. -/
def rollbackCore (migrateErr : Nat → Option String) (c : Nat) (schemaVersion : Int) :
    Option GoErr × List EngineCall :=
  if c == uintOfInt schemaVersion then
    (none, [])
  else if c < uintOfInt schemaVersion then
    (some (.migratorGeneric (aheadMsg schemaVersion c)), [])
  else
    match migrateErr (uintOfInt schemaVersion) with
    | some m => (some (.migratorGeneric m), [.migrateCall (uintOfInt schemaVersion)])
    | none => (none, [.migrateCall (uintOfInt schemaVersion)])

/-- Inner body of `Migrator.Rollback`.  Faithful to the source: ANY
`Version()` error (including `ErrNilVersion`) aborts; when dirty, the
engine is force-reset via `Force(int(c))` to the reported current version
and, on success, execution continues with the comparisons. -/
def rollbackInner (eng : EngineBehavior) (schemaVersion : Int) :
    Option GoErr × List EngineCall :=
  match eng.versionReply.err with
  | some e => (some (.migratorGeneric (vErrMsg e)), [])
  | none =>
    if eng.versionReply.dirty then
      match eng.forceErr (intOfUint eng.versionReply.version) with
      | some m => (some (.migratorGeneric m), [.forceCall (intOfUint eng.versionReply.version)])
      | none =>
        ((rollbackCore eng.migrateErr eng.versionReply.version schemaVersion).1,
          .forceCall (intOfUint eng.versionReply.version)
            :: (rollbackCore eng.migrateErr eng.versionReply.version schemaVersion).2)
    else
      rollbackCore eng.migrateErr eng.versionReply.version schemaVersion

/-- Modelled from the spec: `Utils.Deadline` (defined outside these source
files) races the inner closure against the caller's deadline.  If the
deadline elapses first it reports `ErrDeadlineExceeded` to the caller at
once, superseding the inner result, while the inner closure keeps running
in the background; otherwise the inner result is returned after the inner
closure completed.  Result: (error delivered to the caller, whether the
inner closure had already completed when the envelope returned). -/
def deadlineEnvelope (deadlineFirst : Bool) (inner : Option GoErr) :
    Option GoErr × Bool :=
  if deadlineFirst then (some .deadlineExceeded, false) else (inner, true)

/-- Final classification switch shared by every Migrator operation:
`nil` stays success, `ErrDeadlineExceeded` becomes `ErrMigratorTimedOut`,
anything else becomes `ErrMigratorGeneric` wrapping the cause. -/
def classifyReturn : Option GoErr → MResult
  | none => .ok
  | some .deadlineExceeded => .timedOut
  | some (.migratorGeneric m) => .generic m

/-- The `select { case <-self.done: default: close(self.done) }` pattern
at the end of each inner closure: closes the gate channel unless it is
already closed.  Returns (channel closed after, number of close signals
emitted). -/
def gateSignalOnce (alreadyClosed : Bool) : Bool × Nat :=
  if alreadyClosed then (alreadyClosed, 0) else (true, 1)

/-- Engine lock timeout value: the `migrate.DefaultLockTimeout` default or
the per-operation value derived from the context deadline. -/
inductive LockTimeoutVal where
  | defaultLT
  | untilDeadline
deriving DecidableEq, Repr

/-- Observable record of one run of `Assert`/`Apply`/`Rollback`. -/
structure OpRun where
  result : MResult
  calls : List EngineCall
  gateClosedInEnd : Bool
  gateReleaseCount : Nat
  gateReleasedBeforeReturn : Bool
  lockDuringOp : LockTimeoutVal
  lockRestoredBeforeReturn : Bool
  lockFinal : LockTimeoutVal
deriving DecidableEq, Repr

/-- Assemble a full operation run from its inner body: fresh open gate at
entry (`self.done = make(chan struct, 1)`), lock timeout derived from the
context deadline when present, deadline envelope around the inner body,
gate signalled once at the end of the inner closure, lock timeout restored
to the default after the envelope returns and before the classification
switch returns to the caller. -/
def runOp (innerRun : Option GoErr × List EngineCall)
    (hasCtxDeadline deadlineFirst : Bool) : OpRun :=
  { result := classifyReturn (deadlineEnvelope deadlineFirst innerRun.1).1
    calls := innerRun.2
    gateClosedInEnd := (gateSignalOnce false).1
    gateReleaseCount := (gateSignalOnce false).2
    gateReleasedBeforeReturn := (deadlineEnvelope deadlineFirst innerRun.1).2
    lockDuringOp := if hasCtxDeadline then .untilDeadline else .defaultLT
    lockRestoredBeforeReturn := true
    lockFinal := .defaultLT }

/-- `Migrator.Assert`. -/
def assertGo (eng : EngineBehavior) (schemaVersion : Int)
    (hasCtxDeadline deadlineFirst : Bool) : OpRun :=
  runOp (assertInner eng schemaVersion) hasCtxDeadline deadlineFirst

/-- `Migrator.Apply`. -/
def applyGo (eng : EngineBehavior) (schemaVersion : Int)
    (hasCtxDeadline deadlineFirst : Bool) : OpRun :=
  runOp (applyInner eng schemaVersion) hasCtxDeadline deadlineFirst

/-- `Migrator.Rollback`. -/
def rollbackGo (eng : EngineBehavior) (schemaVersion : Int)
    (hasCtxDeadline deadlineFirst : Bool) : OpRun :=
  runOp (rollbackInner eng schemaVersion) hasCtxDeadline deadlineFirst

/-- `_MIGRATOR_ERR_DB_ALREADY_CLOSED = regexp(".*connection is already closed.*")`:
unanchored `MatchString` holds exactly when the literal occurs as a
substring. -/
def dbAlreadyClosedMatch (s : String) : Bool :=
  decide ("connection is already closed".data <:+: s.data)

/-- Modelled from the spec: `Utils.CombineErrors` (defined outside these
source files) combines the remaining errors, if any, into one failure;
`nil` when both are `nil`. -/
def combineErrors : Option String → Option String → Option String
  | none, none => none
  | some a, none => some a
  | none, some b => some b
  | some a, some b => some (a ++ "; " ++ b)

/-- Error handling of `Migrator.Close` after the gate wait: the engine's
`Close()` yields a source-side and a database-side error; a database-side
error matching `_MIGRATOR_ERR_DB_ALREADY_CLOSED` is dropped (set to nil);
the remainder is combined and, if non-nil, wrapped as Generic. -/
def closeInner (srcErr dbErr : Option String) : Option GoErr :=
  let errD : Option String :=
    match dbErr with
    | some s => if dbAlreadyClosedMatch s then none else some s
    | none => none
  match combineErrors srcErr errD with
  | some m => some (.migratorGeneric m)
  | none => none

/-- `Migrator.Close`: inner error handling under the deadline envelope and
the shared classification switch. -/
def closeGo (srcErr dbErr : Option String) (deadlineFirst : Bool) : MResult :=
  classifyReturn (deadlineEnvelope deadlineFirst (closeInner srcErr dbErr)).1

/-- `NewMigrator`'s return classification: the retry loop's outcome (the
last wrapped connection error, if all attempts failed) under the deadline
envelope and the shared classification switch. -/
def connectGo (retryErr : Option String) (deadlineFirst : Bool) : MResult :=
  classifyReturn
    (deadlineEnvelope deadlineFirst (retryErr.map .migratorGeneric)).1

/-! ## Quiescence gate: Close's rendezvous with an in-flight operation

`Migrator.Close` signals `GracefulStop` (send-or-skip), then blocks on
`<-self.done` — a receive that completes only once the `done` channel has
been closed by the in-flight operation's inner closure — and only then
calls the engine's `Close()`.  Modelled as a labelled transition system:
the gate is `busy` while an operation owns `done` and becomes `idle` when
that operation's closure signals it (the environment step `opCompletes`,
which fires regardless of what result, even `TimedOut`, the operation
already reported to its own caller). -/

/-- State of the `done` channel: `busy` = open (an operation in flight),
`idle` = closed. -/
inductive GateSt where
  | busy
  | idle
deriving DecidableEq, Repr

/-- Program counter of `Migrator.Close`: before the `GracefulStop` send,
after it, after `<-self.done` completed, after the engine's `Close()`. -/
inductive ClosePhase where
  | entry
  | signalled
  | gatePassed
  | engineClosed
deriving DecidableEq, Repr

/-- One step of Close running against the gate environment.  `passGate`
(the completion of `<-self.done`) requires the gate to be idle;
`opCompletes` is the in-flight operation's closure closing `done`. -/
inductive CloseStep : ClosePhase × GateSt → ClosePhase × GateSt → Prop where
  | sendStop (g : GateSt) : CloseStep (.entry, g) (.signalled, g)
  | opCompletes (p : ClosePhase) : CloseStep (p, .busy) (p, .idle)
  | passGate : CloseStep (.signalled, .idle) (.gatePassed, .idle)
  | engClose (g : GateSt) : CloseStep (.gatePassed, g) (.engineClosed, g)

/-! ## Localizer -/

def _LOCALIZER_DEFAULT_LOCALES_PATH : String := "./locales"

/-- The compiled default pattern `^.*\.(yml|yaml)$` as a matcher on file
names (Go `.` does not match a newline, so a newline anywhere in the name
defeats the anchored `.*`). -/
def _LOCALIZER_DEFAULT_LOCALE_EXTENSIONS (name : String) : Bool :=
  (decide (".yml".data <:+ name.data) || decide (".yaml".data <:+ name.data))
    && !(name.data.contains '\n')

/-- `LocalizerConfig`: optional locales path, optional caller-supplied
extension pattern (as a matcher), default locale tag. -/
structure LocalizerConfig where
  localesPath : Option String
  localeExtensions : Option (String → Bool)
  defaultLocale : String

/-- One entry seen by `filepath.WalkDir` under the locales path:
its base name, whether it is a directory, the result of
`language.Parse` on its stem (`none` = parse error, entry skipped), and
the parsed YAML copies (`none` = read/unmarshal error, walk aborted). -/
structure DirEntry where
  name : String
  isDir : Bool
  langOf : Option String
  readResult : Option (List (String × String))

/-- `_getCopies`' walk over the directory entries: skip directories and
names the pattern rejects, skip entries whose stem is not a language tag,
abort on a read/unmarshal error, otherwise collect `(lang, copies)`. -/
def getCopies (pat : String → Bool) :
    List DirEntry → Option (List (String × List (String × String)))
  | [] => some []
  | e :: rest =>
    if e.isDir then getCopies pat rest
    else if !(pat e.name) then getCopies pat rest
    else
      match e.langOf with
      | none => getCopies pat rest
      | some lang =>
        match e.readResult with
        | none => none
        | some copies => (getCopies pat rest).map (fun acc => (lang, copies) :: acc)

/-- The constructed `Localizer`: its normalized config fields and loaded
copies.  (`filepath.Clean` is Go standard library, external; the path is
kept as given.) -/
structure LocalizerModel where
  localesPath : String
  localeExtensions : String → Bool
  copies : List (String × List (String × String))

/-- `NewLocalizer`: defaults the path when absent, then UNCONDITIONALLY
overwrites `config.LocaleExtensions` with (a copy of) the default pattern
(source line `config.LocaleExtensions = _LOCALIZER_DEFAULT_LOCALE_EXTENSIONS.Copy()`),
and loads the copies. -/
def NewLocalizer (config : LocalizerConfig) (entries : List DirEntry) :
    Except String LocalizerModel :=
  match getCopies _LOCALIZER_DEFAULT_LOCALE_EXTENSIONS entries with
  | none => .error "ErrLocalizerGeneric"
  | some cs =>
    .ok ⟨config.localesPath.getD _LOCALIZER_DEFAULT_LOCALES_PATH,
      _LOCALIZER_DEFAULT_LOCALE_EXTENSIONS, cs⟩

/-- `Localizer.Refresh`: re-runs `_getCopies` with the stored config's
path and pattern. -/
def LocalizerModel.Refresh (l : LocalizerModel) (entries : List DirEntry) :
    Except String LocalizerModel :=
  match getCopies l.localeExtensions entries with
  | none => .error "ErrLocalizerGeneric"
  | some cs => .ok ⟨l.localesPath, l.localeExtensions, cs⟩

/-- The same engine with the dirty flag cleared in its reported reply
(what the engine reports after a successful `Force` to the reported
version, per the engine collaborator contract). -/
def clearDirty (e : EngineBehavior) : EngineBehavior :=
  ⟨⟨e.versionReply.version, false, e.versionReply.err⟩, e.migrateErr, e.forceErr⟩

/-- The same engine reporting `(0, false, nil)` from `Version()` (what
"treating the sentinel as version 0 with no error" would amount to). -/
def atZero (e : EngineBehavior) : EngineBehavior :=
  ⟨⟨0, false, none⟩, e.migrateErr, e.forceErr⟩

/-- A fresh database: the engine reports the `ErrNilVersion` sentinel
(which, per the engine's contract, carries version 0 and a clear dirty
flag), and every transition call succeeds. -/
def freshEngine : EngineBehavior :=
  ⟨⟨0, false, some .nilVersion⟩, fun _ => none, fun _ => none⟩

/-- An engine steadily at version 3, no errors. -/
def steadyEngine : EngineBehavior :=
  ⟨⟨3, false, none⟩, fun _ => none, fun _ => none⟩

/-- An engine reporting a dirty version 2, every call succeeding. -/
def dirtyEngine : EngineBehavior :=
  ⟨⟨2, true, none⟩, fun _ => none, fun _ => none⟩

/-- A sample locale file entry. -/
def sampleEntry : DirEntry := ⟨"en.yml", false, some "en", some [("HI", "Hello")]⟩

/-- A sample configuration carrying a caller-supplied extension pattern
(accepting every file) that `NewLocalizer` is claimed to ignore. -/
def sampleCfg : LocalizerConfig := ⟨none, some (fun _ => true), "en"⟩

/-- The Localizer `NewLocalizer` builds from `sampleCfg` and
`[sampleEntry]`. -/
def sampleLocalizer : LocalizerModel :=
  ⟨"./locales", _LOCALIZER_DEFAULT_LOCALE_EXTENSIONS, [("en", [("HI", "Hello")])]⟩

/-! ## Helper lemmas -/

theorem uintOfInt_ofNat (d : Nat) (hd : d < 2 ^ 64) : uintOfInt (d : Int) = d := by
  have h0 : (0 : Int) ≤ (d : Int) := Int.ofNat_nonneg d
  have h1 : (d : Int) < (W64 : Int) := by
    show (d : Int) < ((2 ^ 64 : Nat) : Int)
    exact_mod_cast hd
  unfold uintOfInt
  rw [Int.emod_eq_of_lt h0 h1]
  simp

/-! ## Claims -/

/-- C1: for every desired version `d` and current version `c` reported by
the engine, Assert succeeds iff `c = d` and the dirty flag is false; when
dirty it fails Generic with the dirty message, when `c > d` with the
"behind" message, when `c < d` with the "ahead" message; and Assert never
performs a mutating engine call. -/
theorem assert_exact_version (eng : EngineBehavior) (d : Nat) (hd : d < 2 ^ 63)
    (hok : eng.versionReply.err = none ∨ eng.versionReply.err = some VErr.nilVersion) :
    ((assertGo eng (d : Int) false false).result = .ok ↔
        (eng.versionReply.version = d ∧ eng.versionReply.dirty = false))
    ∧ (eng.versionReply.dirty = true →
        (assertGo eng (d : Int) false false).result
          = .generic (dirtyMsg eng.versionReply.version))
    ∧ (eng.versionReply.dirty = false → eng.versionReply.version > d →
        (assertGo eng (d : Int) false false).result
          = .generic (behindMsg (d : Int) eng.versionReply.version))
    ∧ (eng.versionReply.dirty = false → eng.versionReply.version < d →
        (assertGo eng (d : Int) false false).result
          = .generic (aheadMsg (d : Int) eng.versionReply.version))
    ∧ (∀ (d' : Int) (h1 h2 : Bool), (assertGo eng d' h1 h2).calls = []) := by
  have h64 : d < 2 ^ 64 := lt_trans hd (by norm_num)
  have hu : uintOfInt (d : Int) = d := uintOfInt_ofNat d h64
  obtain ⟨⟨c, dirty, err⟩, me, fe⟩ := eng
  simp only at hok
  have hcalls : ∀ (d' : Int) (h1 h2 : Bool),
      (assertGo ⟨⟨c, dirty, err⟩, me, fe⟩ d' h1 h2).calls = [] := by
    intro d' h1 h2
    show (assertInner ⟨⟨c, dirty, err⟩, me, fe⟩ d').2 = []
    unfold assertInner
    rcases err with _ | e
    · split_ifs <;> rfl
    · rcases e with _ | m
      · split_ifs <;> rfl
      · rfl
  have hres : (assertGo ⟨⟨c, dirty, err⟩, me, fe⟩ (d : Int) false false).result
      = (if dirty then MResult.generic (dirtyMsg c)
         else if c > d then MResult.generic (behindMsg (d : Int) c)
         else if c < d then MResult.generic (aheadMsg (d : Int) c)
         else MResult.ok) := by
    show classifyReturn (deadlineEnvelope false (assertInner ⟨⟨c, dirty, err⟩, me, fe⟩ (d : Int)).1).1
        = _
    rcases hok with h | h <;> subst h <;>
      unfold assertInner <;>
      simp only [hu] <;>
      split_ifs <;>
      rfl
  refine ⟨?_, ?_, ?_, ?_, hcalls⟩
  · rw [hres]
    cases dirty
    · rcases Nat.lt_trichotomy c d with h | h | h
      · simp [h, Nat.not_lt.mpr (Nat.le_of_lt h), Nat.ne_of_lt h]
      · simp [h]
      · simp [h, Nat.not_lt.mpr (Nat.le_of_lt h), (Nat.ne_of_lt h).symm]
    · simp
  · intro h; rw [hres]; simp only at h; simp [h]
  · intro h hgt; rw [hres]; simp only at h hgt
    simp [h, hgt, Nat.not_lt.mpr (Nat.le_of_lt hgt)]
  · intro h hlt; rw [hres]; simp only at h hlt
    simp [h, hlt, Nat.not_lt.mpr (Nat.le_of_lt hlt)]

/-- Witness for C1 at engine version 3, desired version 3. -/
theorem assert_exact_version_witness :
    (3 < 2 ^ 63
      ∧ ((⟨⟨3, false, none⟩, fun _ => none, fun _ => none⟩ : EngineBehavior).versionReply.err = none
          ∨ (⟨⟨3, false, none⟩, fun _ => none, fun _ => none⟩ : EngineBehavior).versionReply.err
              = some VErr.nilVersion))
    ∧ ((assertGo ⟨⟨3, false, none⟩, fun _ => none, fun _ => none⟩ ((3 : Nat) : Int) false false).result
        = .ok ↔
        ((⟨⟨3, false, none⟩, fun _ => none, fun _ => none⟩ : EngineBehavior).versionReply.version = 3
          ∧ (⟨⟨3, false, none⟩, fun _ => none, fun _ => none⟩ : EngineBehavior).versionReply.dirty = false)) :=
  ⟨⟨by norm_num, Or.inl rfl⟩,
    (assert_exact_version ⟨⟨3, false, none⟩, fun _ => none, fun _ => none⟩ 3
      (by norm_num) (Or.inl rfl)).1⟩


/-- C2: Apply first fails Generic on a dirty flag exactly as Assert does
(before any version comparison); otherwise it is a no-op that succeeds
without touching the engine when `c = d`, fails Generic when `c > d`, and
invokes the engine's forward `Migrate(d)` — succeeding, or failing Generic
wrapping the engine error — when `c < d`. -/
theorem apply_semantics (eng : EngineBehavior) (d : Nat) (hd : d < 2 ^ 63)
    (hok : eng.versionReply.err = none ∨ eng.versionReply.err = some VErr.nilVersion) :
    (eng.versionReply.dirty = true →
        (applyGo eng (d : Int) false false).result
            = (assertGo eng (d : Int) false false).result
        ∧ (applyGo eng (d : Int) false false).result
            = .generic (dirtyMsg eng.versionReply.version)
        ∧ (applyGo eng (d : Int) false false).calls = [])
    ∧ (eng.versionReply.dirty = false → eng.versionReply.version = d →
        (applyGo eng (d : Int) false false).result = .ok
        ∧ (applyGo eng (d : Int) false false).calls = [])
    ∧ (eng.versionReply.dirty = false → eng.versionReply.version > d →
        (applyGo eng (d : Int) false false).result
            = .generic (behindMsg (d : Int) eng.versionReply.version)
        ∧ (applyGo eng (d : Int) false false).calls = [])
    ∧ (eng.versionReply.dirty = false → eng.versionReply.version < d →
        (applyGo eng (d : Int) false false).calls = [EngineCall.migrateCall d]
        ∧ (eng.migrateErr d = none → (applyGo eng (d : Int) false false).result = .ok)
        ∧ (∀ m, eng.migrateErr d = some m →
            (applyGo eng (d : Int) false false).result = .generic m)) := by
  have h64 : d < 2 ^ 64 := lt_trans hd (by norm_num)
  have hu : uintOfInt (d : Int) = d := uintOfInt_ofNat d h64
  obtain ⟨⟨c, dirty, err⟩, me, fe⟩ := eng
  simp only at hok ⊢
  have hinner : applyInner ⟨⟨c, dirty, err⟩, me, fe⟩ (d : Int)
      = (if dirty then (some (.migratorGeneric (dirtyMsg c)), [])
         else if c = d then (none, [])
         else if c > d then (some (.migratorGeneric (behindMsg (d : Int) c)), [])
         else match me d with
           | some m => (some (.migratorGeneric m), [.migrateCall d])
           | none => (none, [.migrateCall d])) := by
    rcases hok with h | h <;> subst h <;>
      · unfold applyInner
        simp only [hu, beq_iff_eq]
  have hres : ∀ x, (applyGo ⟨⟨c, dirty, err⟩, me, fe⟩ (d : Int) false false).result = x ↔
      classifyReturn (applyInner ⟨⟨c, dirty, err⟩, me, fe⟩ (d : Int)).1 = x := by
    intro x; exact Iff.rfl
  have hcal : ∀ x, (applyGo ⟨⟨c, dirty, err⟩, me, fe⟩ (d : Int) false false).calls = x ↔
      (applyInner ⟨⟨c, dirty, err⟩, me, fe⟩ (d : Int)).2 = x := by
    intro x; exact Iff.rfl
  refine ⟨?_, ?_, ?_, ?_⟩
  · intro hdirt; subst hdirt
    have hassert :
        (assertGo ⟨⟨c, true, err⟩, me, fe⟩ (d : Int) false false).result
          = MResult.generic (dirtyMsg c) := by
      show classifyReturn (deadlineEnvelope false
        (assertInner ⟨⟨c, true, err⟩, me, fe⟩ (d : Int)).1).1 = _
      rcases hok with h | h <;> subst h <;>
        · unfold assertInner
          simp [deadlineEnvelope, classifyReturn]
    refine ⟨?_, ?_, ?_⟩
    · rw [hres, hassert, hinner]; simp [classifyReturn]
    · rw [hres, hinner]; simp [classifyReturn]
    · rw [hcal, hinner]; simp
  · intro hdirt heq; subst hdirt; subst heq
    refine ⟨?_, ?_⟩
    · rw [hres, hinner]; simp [classifyReturn]
    · rw [hcal, hinner]; simp
  · intro hdirt hgt; subst hdirt
    have hne : ¬(c = d) := (Nat.ne_of_lt hgt).symm
    refine ⟨?_, ?_⟩
    · rw [hres, hinner]; simp [classifyReturn, hne, hgt]
    · rw [hcal, hinner]; simp [hne, hgt]
  · intro hdirt hlt; subst hdirt
    have hne : ¬(c = d) := Nat.ne_of_lt hlt
    have hng : ¬(c > d) := Nat.not_lt.mpr (Nat.le_of_lt hlt)
    refine ⟨?_, ?_, ?_⟩
    · rw [hcal, hinner]
      rcases hm : me d with _ | m <;> simp [hne, hng, hm]
    · intro hm; rw [hres, hinner]; simp [classifyReturn, hne, hng, hm]
    · intro m hm; rw [hres, hinner]; simp [classifyReturn, hne, hng, hm]

/-- Witness for C2 at engine version 3, desired version 5 (forward
transition invoked). -/
theorem apply_semantics_witness :
    ((5 : Nat) < 2 ^ 63
      ∧ (steadyEngine.versionReply.err = none
          ∨ steadyEngine.versionReply.err = some VErr.nilVersion)
      ∧ steadyEngine.versionReply.dirty = false
      ∧ steadyEngine.versionReply.version < 5)
    ∧ (applyGo steadyEngine ((5 : Nat) : Int) false false).calls
        = [EngineCall.migrateCall 5] :=
  ⟨⟨by norm_num, Or.inl rfl, rfl, by decide⟩,
    ((apply_semantics steadyEngine 5 (by norm_num) (Or.inl rfl)).2.2.2 rfl (by decide)).1⟩

/-- C3: Rollback, when the dirty flag is set, first force-resets the
engine's recorded version to the reported current version via
`Force(int(c))` — which per the engine contract clears dirtiness — and
then continues exactly as on a clean engine rather than aborting; after
that it is a no-op when `c = d`, fails Generic with the "ahead" message
when `c < d`, and invokes the engine's `Migrate(d)` when `c > d`. -/
theorem rollback_semantics (eng : EngineBehavior) (d : Nat) (hd : d < 2 ^ 63)
    (hok : eng.versionReply.err = none) :
    (eng.versionReply.dirty = true →
        eng.forceErr (intOfUint eng.versionReply.version) = none →
        (rollbackGo eng (d : Int) false false).calls
            = EngineCall.forceCall (intOfUint eng.versionReply.version)
                :: (rollbackGo (clearDirty eng) (d : Int) false false).calls
        ∧ (rollbackGo eng (d : Int) false false).result
            = (rollbackGo (clearDirty eng) (d : Int) false false).result)
    ∧ (eng.versionReply.dirty = false → eng.versionReply.version = d →
        (rollbackGo eng (d : Int) false false).result = .ok
        ∧ (rollbackGo eng (d : Int) false false).calls = [])
    ∧ (eng.versionReply.dirty = false → eng.versionReply.version < d →
        (rollbackGo eng (d : Int) false false).result
            = .generic (aheadMsg (d : Int) eng.versionReply.version)
        ∧ (rollbackGo eng (d : Int) false false).calls = [])
    ∧ (eng.versionReply.dirty = false → eng.versionReply.version > d →
        (rollbackGo eng (d : Int) false false).calls = [EngineCall.migrateCall d]
        ∧ (eng.migrateErr d = none →
            (rollbackGo eng (d : Int) false false).result = .ok)
        ∧ (∀ m, eng.migrateErr d = some m →
            (rollbackGo eng (d : Int) false false).result = .generic m)) := by
  have h64 : d < 2 ^ 64 := lt_trans hd (by norm_num)
  have hu : uintOfInt (d : Int) = d := uintOfInt_ofNat d h64
  obtain ⟨⟨c, dirty, err⟩, me, fe⟩ := eng
  simp only at hok ⊢
  subst hok
  have hcore : rollbackCore me c (d : Int)
      = (if c = d then (none, [])
         else if c < d then (some (.migratorGeneric (aheadMsg (d : Int) c)), [])
         else match me d with
           | some m => (some (.migratorGeneric m), [.migrateCall d])
           | none => (none, [.migrateCall d])) := by
    unfold rollbackCore
    simp only [hu, beq_iff_eq]
  have hres : ∀ x, (rollbackGo ⟨⟨c, dirty, none⟩, me, fe⟩ (d : Int) false false).result = x ↔
      classifyReturn (rollbackInner ⟨⟨c, dirty, none⟩, me, fe⟩ (d : Int)).1 = x := by
    intro x; exact Iff.rfl
  have hcal : ∀ x, (rollbackGo ⟨⟨c, dirty, none⟩, me, fe⟩ (d : Int) false false).calls = x ↔
      (rollbackInner ⟨⟨c, dirty, none⟩, me, fe⟩ (d : Int)).2 = x := by
    intro x; exact Iff.rfl
  refine ⟨?_, ?_, ?_, ?_⟩
  · intro hdirt hforce; subst hdirt
    refine ⟨?_, ?_⟩
    · rw [hcal]
      show _ = EngineCall.forceCall (intOfUint c)
          :: (rollbackInner (clearDirty ⟨⟨c, true, none⟩, me, fe⟩) (d : Int)).2
      unfold rollbackInner clearDirty
      simp [hforce]
    · rw [hres]
      show _ = classifyReturn
          (rollbackInner (clearDirty ⟨⟨c, true, none⟩, me, fe⟩) (d : Int)).1
      unfold rollbackInner clearDirty
      simp [hforce]
  · intro hdirt heq; subst hdirt; subst heq
    refine ⟨?_, ?_⟩
    · rw [hres]; unfold rollbackInner; simp [hcore, classifyReturn]
    · rw [hcal]; unfold rollbackInner; simp [hcore]
  · intro hdirt hlt; subst hdirt
    have hne : ¬(c = d) := Nat.ne_of_lt hlt
    refine ⟨?_, ?_⟩
    · rw [hres]; unfold rollbackInner; simp [hcore, classifyReturn, hne, hlt]
    · rw [hcal]; unfold rollbackInner; simp [hcore, hne, hlt]
  · intro hdirt hgt; subst hdirt
    have hne : ¬(c = d) := (Nat.ne_of_lt hgt).symm
    have hnl : ¬(c < d) := Nat.not_lt.mpr (Nat.le_of_lt hgt)
    refine ⟨?_, ?_, ?_⟩
    · rw [hcal]; unfold rollbackInner
      rcases hm : me d with _ | m <;> simp [hcore, hne, hnl, hm]
    · intro hm; rw [hres]; unfold rollbackInner
      simp [hcore, classifyReturn, hne, hnl, hm]
    · intro m hm; rw [hres]; unfold rollbackInner
      simp [hcore, classifyReturn, hne, hnl, hm]

/-- Witness for C3: the engine reports dirty at version 2 and Rollback(1)
force-resets to 2, then continues as on a clean engine. -/
theorem rollback_semantics_witness :
    ((1 : Nat) < 2 ^ 63
      ∧ dirtyEngine.versionReply.err = none
      ∧ dirtyEngine.versionReply.dirty = true
      ∧ dirtyEngine.forceErr (intOfUint dirtyEngine.versionReply.version) = none)
    ∧ (rollbackGo dirtyEngine ((1 : Nat) : Int) false false).calls
        = EngineCall.forceCall (intOfUint dirtyEngine.versionReply.version)
            :: (rollbackGo (clearDirty dirtyEngine) ((1 : Nat) : Int) false false).calls
    ∧ (rollbackGo dirtyEngine ((1 : Nat) : Int) false false).result
        = (rollbackGo (clearDirty dirtyEngine) ((1 : Nat) : Int) false false).result :=
  ⟨⟨by norm_num, rfl, rfl, rfl⟩,
    (rollback_semantics dirtyEngine 1 (by norm_num) rfl).1 rfl rfl⟩

/-- C4 counterexample: on a fresh database the engine reports the
`ErrNilVersion` sentinel; Assert(0) and Apply(0) proceed as if the
current version were 0 and succeed, but Rollback(0) does NOT — it fails
Generic wrapping the sentinel instead of treating it as version 0 with no
error. -/
theorem nil_version_cex :
    (rollbackGo freshEngine 0 false false).result
        = .generic "no migration"
    ∧ (rollbackGo (atZero freshEngine) 0 false false).result = .ok
    ∧ (assertGo freshEngine 0 false false).result = .ok
    ∧ (applyGo freshEngine 0 false false).result = .ok := by
  refine ⟨rfl, ?_, rfl, ?_⟩ <;> decide

/-- C4 (amended): a sentinel `ErrNilVersion` reply — which per the engine
contract carries version 0 and a clear dirty flag — is treated by Assert
and Apply as current version 0 with no error (they behave exactly as
against an engine reporting `(0, false, nil)`), but Rollback treats any
`Version()` error, the sentinel included, as a Generic failure rather
than proceeding. -/
theorem nil_version_amended (eng : EngineBehavior)
    (hnil : eng.versionReply.err = some VErr.nilVersion)
    (hv : eng.versionReply.version = 0)
    (hdirt : eng.versionReply.dirty = false) :
    ∀ (d : Int) (h1 h2 : Bool),
      assertGo eng d h1 h2 = assertGo (atZero eng) d h1 h2
      ∧ applyGo eng d h1 h2 = applyGo (atZero eng) d h1 h2
      ∧ (rollbackGo eng d false false).result
          = .generic (vErrMsg VErr.nilVersion) := by
  obtain ⟨⟨c, dirty, err⟩, me, fe⟩ := eng
  simp only at hnil hv hdirt
  subst hnil; subst hv; subst hdirt
  intro d h1 h2
  exact ⟨rfl, rfl, rfl⟩

/-- Witness for the amended C4 at the fresh-database engine, desired
version 5. -/
theorem nil_version_amended_witness :
    (freshEngine.versionReply.err = some VErr.nilVersion
      ∧ freshEngine.versionReply.version = 0
      ∧ freshEngine.versionReply.dirty = false)
    ∧ (assertGo freshEngine 5 false false = assertGo (atZero freshEngine) 5 false false
      ∧ applyGo freshEngine 5 false false = applyGo (atZero freshEngine) 5 false false
      ∧ (rollbackGo freshEngine 5 false false).result
          = .generic (vErrMsg VErr.nilVersion)) :=
  ⟨⟨rfl, rfl, rfl⟩, nil_version_amended freshEngine rfl rfl rfl 5 false false⟩

/-- C5: for every operation wrapped in the deadline envelope (connect,
Assert, Apply, Rollback, Close), when the deadline elapses before the
inner logic completes the caller-visible result is TimedOut, superseding
whatever the inner outcome is; when the deadline does not fire, the
result is exactly the classification of the inner outcome: success stays
ok and an inner `ErrMigratorGeneric` failure surfaces as Generic wrapping
the cause, never as TimedOut. -/
theorem deadline_envelope_timed_out :
    (∀ (eng : EngineBehavior) (d : Int) (h : Bool),
        (assertGo eng d h true).result = .timedOut
        ∧ (applyGo eng d h true).result = .timedOut
        ∧ (rollbackGo eng d h true).result = .timedOut)
    ∧ (∀ srcE dbE, closeGo srcE dbE true = .timedOut)
    ∧ (∀ r, connectGo r true = .timedOut)
    ∧ (∀ (eng : EngineBehavior) (d : Int) (h : Bool),
        (assertGo eng d h false).result = classifyReturn (assertInner eng d).1
        ∧ (applyGo eng d h false).result = classifyReturn (applyInner eng d).1
        ∧ (rollbackGo eng d h false).result = classifyReturn (rollbackInner eng d).1)
    ∧ (∀ srcE dbE, closeGo srcE dbE false = classifyReturn (closeInner srcE dbE))
    ∧ (∀ m, connectGo (some m) false = .generic m)
    ∧ (∀ m, classifyReturn (some (GoErr.migratorGeneric m)) = .generic m)
    ∧ classifyReturn none = .ok
    ∧ connectGo none false = .ok := by
  refine ⟨?_, ?_, ?_, ?_, ?_, ?_, ?_, rfl, rfl⟩ <;> intros <;>
    first
      | exact ⟨rfl, rfl, rfl⟩
      | rfl

/-- C7: during Close, a database-side error matching the
`connection is already closed` pattern is benign: the outcome is
identical to having no database-side error at all, and such an error
alone never fails Close; a remaining source-side error (combined with any
database-side remainder) yields a single Generic failure, as does a
non-matching database-side error; with no remaining errors Close
succeeds. -/
theorem close_error_combination :
    (∀ (srcE : Option String) (s : String), dbAlreadyClosedMatch s = true →
        closeGo srcE (some s) false = closeGo srcE none false)
    ∧ (∀ s, dbAlreadyClosedMatch s = true → closeGo none (some s) false = .ok)
    ∧ closeGo none none false = .ok
    ∧ (∀ (a : String) (dbE : Option String), ∃ m, closeGo (some a) dbE false = .generic m)
    ∧ (∀ b, dbAlreadyClosedMatch b = false →
        closeGo none (some b) false = .generic b) := by
  refine ⟨?_, ?_, rfl, ?_, ?_⟩
  · intro srcE s h
    cases srcE <;>
      simp [closeGo, closeInner, h, combineErrors, deadlineEnvelope, classifyReturn]
  · intro s h
    simp [closeGo, closeInner, h, combineErrors, deadlineEnvelope, classifyReturn]
  · intro a dbE
    rcases dbE with _ | b
    · exact ⟨a, rfl⟩
    · by_cases h : dbAlreadyClosedMatch b
      · exact ⟨a, by
          simp [closeGo, closeInner, h, combineErrors, deadlineEnvelope, classifyReturn]⟩
      · exact ⟨a ++ "; " ++ b, by
          simp [closeGo, closeInner, h, combineErrors, deadlineEnvelope, classifyReturn]⟩
  · intro b h
    simp [closeGo, closeInner, h, combineErrors, deadlineEnvelope, classifyReturn]

/-- Witness for C7: a concrete "connection is already closed" database
error alone leaves Close successful. -/
theorem close_error_combination_witness :
    dbAlreadyClosedMatch "pq: connection is already closed" = true
    ∧ closeGo none (some "pq: connection is already closed") false = .ok :=
  ⟨by decide,
    close_error_combination.2.1 "pq: connection is already closed" (by decide)⟩

/-- C8 counterexample: on the deadline-timeout exit path the quiescence
gate is NOT released before the operation returns to its caller — the
inner closure performing the release is still running when the envelope
reports TimedOut — so the claim's "released … before the operation
returns" fails on that path (the lock timeout, by contrast, is restored
before return even then). -/
theorem gate_release_cex :
    (applyGo steadyEngine 3 true true).result = .timedOut
    ∧ (applyGo steadyEngine 3 true true).gateReleasedBeforeReturn = false
    ∧ (applyGo steadyEngine 3 true true).lockRestoredBeforeReturn = true := by
  exact ⟨rfl, rfl, rfl⟩

/-- C8 (amended): on every exit path of Assert, Apply and Rollback the
gate is signalled exactly once (the inner closure's guarded close fires
on a gate that is open at entry) and the engine lock timeout is restored
to its default before the operation returns; the gate release also
happens before the return whenever the deadline did not fire first, but
on the timeout path it happens only when the background inner closure
completes, possibly after the operation has returned. -/
theorem gate_release_amended :
    ∀ (eng : EngineBehavior) (d : Int) (h dl : Bool),
      ((assertGo eng d h dl).gateReleaseCount = 1
        ∧ (assertGo eng d h dl).gateClosedInEnd = true
        ∧ (assertGo eng d h dl).lockFinal = .defaultLT
        ∧ (assertGo eng d h dl).lockRestoredBeforeReturn = true
        ∧ (assertGo eng d h dl).gateReleasedBeforeReturn = !dl)
      ∧ ((applyGo eng d h dl).gateReleaseCount = 1
        ∧ (applyGo eng d h dl).gateClosedInEnd = true
        ∧ (applyGo eng d h dl).lockFinal = .defaultLT
        ∧ (applyGo eng d h dl).lockRestoredBeforeReturn = true
        ∧ (applyGo eng d h dl).gateReleasedBeforeReturn = !dl)
      ∧ ((rollbackGo eng d h dl).gateReleaseCount = 1
        ∧ (rollbackGo eng d h dl).gateClosedInEnd = true
        ∧ (rollbackGo eng d h dl).lockFinal = .defaultLT
        ∧ (rollbackGo eng d h dl).lockRestoredBeforeReturn = true
        ∧ (rollbackGo eng d h dl).gateReleasedBeforeReturn = !dl) := by
  intro eng d h dl
  cases dl <;>
    exact ⟨⟨rfl, rfl, rfl, rfl, rfl⟩, ⟨rfl, rfl, rfl, rfl, rfl⟩,
      ⟨rfl, rfl, rfl, rfl, rfl⟩⟩

/-- C9: a negative desired version is converted with Go `uint(d)` — i.e.
to `d + 2^64` — before any comparison, so it is not rejected: for every
current version below that wrapped value (any realistic version), Assert
and Rollback fail with the "ahead" message (because `c < uint(d)`), and
Apply invokes `Migrate(uint(d))` at the wrapped value. -/
theorem negative_version_unsigned_wrap (d : Int) (hneg : d < 0)
    (hlow : -(2 ^ 63 : Int) ≤ d) (eng : EngineBehavior)
    (hok : eng.versionReply.err = none)
    (hdirt : eng.versionReply.dirty = false)
    (hc : (eng.versionReply.version : Int) < (W64 : Int) + d) :
    uintOfInt d = ((W64 : Int) + d).toNat
    ∧ (assertGo eng d false false).result
        = .generic (aheadMsg d eng.versionReply.version)
    ∧ (rollbackGo eng d false false).result
        = .generic (aheadMsg d eng.versionReply.version)
    ∧ (applyGo eng d false false).calls
        = [EngineCall.migrateCall (uintOfInt d)] := by
  have hW : (W64 : Int) = 18446744073709551616 := by norm_num [W64]
  have h63 : ((2 : Int) ^ 63) = 9223372036854775808 := by norm_num
  have hmod : d % (W64 : Int) = (W64 : Int) + d := by
    rw [hW]; rw [h63] at hlow; omega
  have hu : uintOfInt d = ((W64 : Int) + d).toNat := by
    unfold uintOfInt; rw [hmod]
  obtain ⟨⟨c, dirty, err⟩, me, fe⟩ := eng
  simp only at hok hdirt hc ⊢
  subst hok; subst hdirt
  have hcn : c < uintOfInt d := by
    rw [hu]
    exact Int.lt_toNat.mpr hc
  have hng : ¬(c > uintOfInt d) := Nat.not_lt.mpr (Nat.le_of_lt hcn)
  have hne : ¬(c = uintOfInt d) := Nat.ne_of_lt hcn
  refine ⟨hu, ?_, ?_, ?_⟩
  · show classifyReturn (deadlineEnvelope false
        (assertInner ⟨⟨c, false, none⟩, me, fe⟩ d).1).1 = _
    unfold assertInner
    simp [hcn, hng, classifyReturn, deadlineEnvelope]
  · show classifyReturn (deadlineEnvelope false
        (rollbackInner ⟨⟨c, false, none⟩, me, fe⟩ d).1).1 = _
    unfold rollbackInner rollbackCore
    simp [hcn, hng, hne, classifyReturn, deadlineEnvelope]
  · show (applyInner ⟨⟨c, false, none⟩, me, fe⟩ d).2 = _
    unfold applyInner
    rcases hm : me (uintOfInt d) with _ | m <;> simp [hcn, hng, hne, hm]

/-- Witness for C9 at desired version `-1` against an engine at
version 3: Assert fails with the "ahead" message. -/
theorem negative_version_unsigned_wrap_witness :
    ((-1 : Int) < 0
      ∧ -(2 ^ 63 : Int) ≤ (-1 : Int)
      ∧ steadyEngine.versionReply.err = none
      ∧ steadyEngine.versionReply.dirty = false
      ∧ ((steadyEngine.versionReply.version : Int) < (W64 : Int) + (-1)))
    ∧ (assertGo steadyEngine (-1) false false).result
        = .generic (aheadMsg (-1) steadyEngine.versionReply.version) :=
  ⟨⟨by norm_num, by norm_num, rfl, rfl, by norm_num [W64, steadyEngine]⟩,
    (negative_version_unsigned_wrap (-1) (by norm_num) (by norm_num) steadyEngine
      rfl rfl (by norm_num [W64, steadyEngine])).2.1⟩

/-- C6: Close never completes its engine-close step before the quiescence
gate reaches idle.  First conjunct: in every execution of the Close
transition system, any reachable state in which the engine's close has
run (and already the state right after the `<-done` receive) has the gate
idle; the receive completes only once the in-flight operation — whatever
result, even TimedOut, it already reported to its own caller — has
signalled the gate.  Second conjunct: while the gate is busy, the only
step possible from the waiting state is the in-flight operation
completing; Close itself cannot advance. -/
theorem close_waits_for_gate :
    (∀ (g0 : GateSt) (s : ClosePhase × GateSt),
        Relation.ReflTransGen CloseStep (ClosePhase.entry, g0) s →
        (s.1 = ClosePhase.gatePassed ∨ s.1 = ClosePhase.engineClosed) →
        s.2 = GateSt.idle)
    ∧ (∀ s, CloseStep (ClosePhase.signalled, GateSt.busy) s →
        s.1 = ClosePhase.signalled) := by
  constructor
  · intro g0 s h
    induction h with
    | refl => intro hc; rcases hc with hc | hc <;> simp at hc
    | tail hab hbc ih =>
      intro hc
      cases hbc with
      | sendStop g => rcases hc with hc | hc <;> simp at hc
      | opCompletes p => rfl
      | passGate => rfl
      | engClose g => exact ih (Or.inl rfl)
  · intro s h
    cases h
    rfl

/-- Witness for C6: a concrete execution from a busy gate — graceful-stop
signal, in-flight operation completes, gate passed, engine closed — on
which the theorem yields that the gate is idle at the engine-close
state. -/
theorem close_waits_for_gate_witness :
    Relation.ReflTransGen CloseStep (ClosePhase.entry, GateSt.busy)
        (ClosePhase.engineClosed, GateSt.idle)
    ∧ (ClosePhase.engineClosed, GateSt.idle).2 = GateSt.idle := by
  have htrace : Relation.ReflTransGen CloseStep (ClosePhase.entry, GateSt.busy)
      (ClosePhase.engineClosed, GateSt.idle) :=
    Relation.ReflTransGen.head (CloseStep.sendStop _)
      (Relation.ReflTransGen.head (CloseStep.opCompletes _)
        (Relation.ReflTransGen.head CloseStep.passGate
          (Relation.ReflTransGen.head (CloseStep.engClose _)
            Relation.ReflTransGen.refl)))
  exact ⟨htrace, close_waits_for_gate.1 GateSt.busy _ htrace (Or.inr rfl)⟩

/-- C10: `NewLocalizer` unconditionally overwrites the caller-supplied
`LocaleExtensions` with the default yml/yaml pattern: its result is
independent of the supplied pattern, the constructed Localizer stores the
default pattern, and every subsequent Refresh therefore walks the locale
files with the default pattern only. -/
theorem localizer_extensions_overwritten
    (cfg : LocalizerConfig) (p : Option (String → Bool)) (es es2 : List DirEntry) :
    NewLocalizer ⟨cfg.localesPath, p, cfg.defaultLocale⟩ es = NewLocalizer cfg es
    ∧ ∀ l, NewLocalizer cfg es = .ok l →
        l.localeExtensions = _LOCALIZER_DEFAULT_LOCALE_EXTENSIONS
        ∧ l.Refresh es2
            = (match getCopies _LOCALIZER_DEFAULT_LOCALE_EXTENSIONS es2 with
                | none => Except.error "ErrLocalizerGeneric"
                | some cs => Except.ok ⟨l.localesPath, l.localeExtensions, cs⟩) := by
  constructor
  · rfl
  · intro l hl
    unfold NewLocalizer at hl
    rcases hg : getCopies _LOCALIZER_DEFAULT_LOCALE_EXTENSIONS es with _ | cs
    · rw [hg] at hl; simp at hl
    · rw [hg] at hl
      simp only [Except.ok.injEq] at hl
      subst hl
      exact ⟨rfl, rfl⟩

/-- Witness for C10: a configuration supplying an accept-everything
pattern still yields a Localizer holding the default pattern, and its
Refresh uses that default pattern. -/
theorem localizer_extensions_overwritten_witness :
    NewLocalizer sampleCfg [sampleEntry] = Except.ok sampleLocalizer
    ∧ sampleLocalizer.localeExtensions = _LOCALIZER_DEFAULT_LOCALE_EXTENSIONS
    ∧ sampleLocalizer.Refresh []
        = (match getCopies _LOCALIZER_DEFAULT_LOCALE_EXTENSIONS [] with
            | none => Except.error "ErrLocalizerGeneric"
            | some cs =>
                Except.ok ⟨sampleLocalizer.localesPath, sampleLocalizer.localeExtensions, cs⟩) := by
  have hok : NewLocalizer sampleCfg [sampleEntry] = Except.ok sampleLocalizer := by
    show Except.ok _ = _
    rfl
  have h := (localizer_extensions_overwritten sampleCfg none [sampleEntry] []).2
    sampleLocalizer hok
  exact ⟨hok, h.1, h.2⟩
